import Mathlib

/-!
Verification of the `ok_parser` ingestion pipeline: a shallow embedding of
the request signer (`parser/api/auth.py`), the rate-limited transport
(`parser/api/client.py`), the comment normalizer (`parser/models/comment.py`),
the comment repository (`parser/repositories/comment_repo.py`) and the
ingestion orchestrator (`parser/services/parser_service.py`), together with
theorems settling the specification claims about them.

Machine integers are modelled as `Nat`/`Int` with explicit reduction
modulo `2 ^ 32` (resp. `2 ^ 64`) where the MD5 algorithm overflows.
Python `dict`s of string keys/values are modelled as insertion-ordered
association lists; Python exceptions become `Except` values.
-/

namespace OkPipeline

/-! ## Byte-level helpers and MD5 (`hashlib.md5`)

`auth.py` signs with `hashlib.md5(s.encode("utf-8")).hexdigest().lower()`.
We embed UTF-8 encoding and the full MD5 algorithm over `List Nat` bytes,
with 32-bit words as `Nat` reduced mod `2 ^ 32`. -/

/-- UTF-8 encoding of a single Unicode code point (as in `str.encode("utf-8")`). -/
def utf8Bytes (c : Nat) : List Nat :=
  if c < 0x80 then [c]
  else if c < 0x800 then
    [0xC0 ||| (c >>> 6), 0x80 ||| (c &&& 0x3F)]
  else if c < 0x10000 then
    [0xE0 ||| (c >>> 12), 0x80 ||| ((c >>> 6) &&& 0x3F), 0x80 ||| (c &&& 0x3F)]
  else
    [0xF0 ||| (c >>> 18), 0x80 ||| ((c >>> 12) &&& 0x3F),
     0x80 ||| ((c >>> 6) &&& 0x3F), 0x80 ||| (c &&& 0x3F)]

/-- `s.encode("utf-8")` as a list of byte values. -/
def strBytes (s : String) : List Nat :=
  s.data.flatMap (fun c => utf8Bytes c.toNat)

/-- The MD5 sine-derived constant table `K`. -/
def md5K : List Nat :=
  [0xd76aa478, 0xe8c7b756, 0x242070db, 0xc1bdceee,
   0xf57c0faf, 0x4787c62a, 0xa8304613, 0xfd469501,
   0x698098d8, 0x8b44f7af, 0xffff5bb1, 0x895cd7be,
   0x6b901122, 0xfd987193, 0xa679438e, 0x49b40821,
   0xf61e2562, 0xc040b340, 0x265e5a51, 0xe9b6c7aa,
   0xd62f105d, 0x02441453, 0xd8a1e681, 0xe7d3fbc8,
   0x21e1cde6, 0xc33707d6, 0xf4d50d87, 0x455a14ed,
   0xa9e3e905, 0xfcefa3f8, 0x676f02d9, 0x8d2a4c8a,
   0xfffa3942, 0x8771f681, 0x6d9d6122, 0xfde5380c,
   0xa4beea44, 0x4bdecfa9, 0xf6bb4b60, 0xbebfbc70,
   0x289b7ec6, 0xeaa127fa, 0xd4ef3085, 0x04881d05,
   0xd9d4d039, 0xe6db99e5, 0x1fa27cf8, 0xc4ac5665,
   0xf4292244, 0x432aff97, 0xab9423a7, 0xfc93a039,
   0x655b59c3, 0x8f0ccc92, 0xffeff47d, 0x85845dd1,
   0x6fa87e4f, 0xfe2ce6e0, 0xa3014314, 0x4e0811a1,
   0xf7537e82, 0xbd3af235, 0x2ad7d2bb, 0xeb86d391]

/-- The MD5 per-round left-rotation amounts `s`. -/
def md5S : List Nat :=
  [7, 12, 17, 22, 7, 12, 17, 22, 7, 12, 17, 22, 7, 12, 17, 22,
   5, 9, 14, 20, 5, 9, 14, 20, 5, 9, 14, 20, 5, 9, 14, 20,
   4, 11, 16, 23, 4, 11, 16, 23, 4, 11, 16, 23, 4, 11, 16, 23,
   6, 10, 15, 21, 6, 10, 15, 21, 6, 10, 15, 21, 6, 10, 15, 21]

/-- 32-bit truncation. -/
def w32 (n : Nat) : Nat := n % 4294967296

/-- 32-bit left rotation. -/
def rotl32 (x c : Nat) : Nat := w32 ((x <<< c) ||| (x >>> (32 - c)))

/-- 32-bit bitwise complement. -/
def not32 (x : Nat) : Nat := 4294967295 - w32 x

/-- Little-endian 32-bit word `j` of a 64-byte chunk. -/
def chunkWord (chunk : List Nat) (j : Nat) : Nat :=
  chunk.getD (4 * j) 0 + 256 * chunk.getD (4 * j + 1) 0 +
    65536 * chunk.getD (4 * j + 2) 0 + 16777216 * chunk.getD (4 * j + 3) 0

/-- One MD5 round `i` on state `(A, B, C, D)` for a given chunk. -/
def md5Round (chunk : List Nat) (st : Nat × Nat × Nat × Nat) (i : Nat) :
    Nat × Nat × Nat × Nat :=
  match st with
  | (a, b, c, d) =>
    let fg : Nat × Nat :=
      if i < 16 then ((b &&& c) ||| (not32 b &&& d), i)
      else if i < 32 then ((d &&& b) ||| (not32 d &&& c), (5 * i + 1) % 16)
      else if i < 48 then (b ^^^ c ^^^ d, (3 * i + 5) % 16)
      else (c ^^^ (b ||| not32 d), (7 * i) % 16)
    let f := w32 (fg.1 + a + md5K.getD i 0 + chunkWord chunk fg.2)
    (d, w32 (b + rotl32 f (md5S.getD i 0)), b, c)

/-- MD5 compression of one 64-byte chunk into the running state. -/
def md5Compress (st : Nat × Nat × Nat × Nat) (chunk : List Nat) :
    Nat × Nat × Nat × Nat :=
  match st with
  | (a0, b0, c0, d0) =>
    match (List.range 64).foldl (md5Round chunk) (a0, b0, c0, d0) with
    | (a, b, c, d) => (w32 (a0 + a), w32 (b0 + b), w32 (c0 + c), w32 (d0 + d))

/-- MD5 padding: `0x80`, zeros to 56 mod 64, then the bit length as 64-bit LE. -/
def md5Pad (msg : List Nat) : List Nat :=
  let len := msg.length
  let zeros := (119 - len % 64) % 64
  let bitLen := (len * 8) % 18446744073709551616
  msg ++ [0x80] ++ List.replicate zeros 0 ++
    ((List.range 8).map (fun i => (bitLen >>> (8 * i)) &&& 0xFF))

/-- The 64-byte chunk starting at block index `i` of a padded message. -/
def chunkAt (msg : List Nat) (i : Nat) : List Nat :=
  (msg.drop (64 * i)).take 64

/-- MD5 digest of a byte list, as the 16 digest bytes. -/
def md5Bytes (msg : List Nat) : List Nat :=
  let padded := md5Pad msg
  let final :=
    (List.range (padded.length / 64)).foldl
      (fun st i => md5Compress st (chunkAt padded i))
      (0x67452301, 0xefcdab89, 0x98badcfe, 0x10325476)
  match final with
  | (a, b, c, d) =>
    [a, b, c, d].flatMap (fun w => (List.range 4).map (fun i => (w >>> (8 * i)) &&& 0xFF))

/-- Lowercase hexadecimal digit. -/
def hexDigit (n : Nat) : Char := Nat.digitChar (n % 16)

/-- Lowercase hex rendering of a byte list (as `hexdigest()`). -/
def bytesToHex (bs : List Nat) : String :=
  String.mk (bs.flatMap (fun b => [hexDigit (b / 16 % 16), hexDigit (b % 16)]))

/-- `hashlib.md5(s.encode("utf-8")).hexdigest().lower()`: `hexdigest()` is
already lowercase, so `.lower()` is the identity on it. -/
def md5HexLower (s : String) : String :=
  bytesToHex (md5Bytes (strBytes s))

/-! ## Python `dict` model

`auth.py` and `client.py` manipulate flat `dict`s of string keys and values.
We model them as insertion-ordered association lists: assignment replaces the
value in place when the key exists, else appends. -/

/-- A Python `dict` with string keys and values: insertion-ordered entries. -/
abbrev Dict := List (String × String)

/-- `d[k] = v`: replace in place if `k` is a key of `d`, else append. -/
def dset (d : Dict) (k v : String) : Dict :=
  if d.any (fun p => p.1 = k) then
    d.map (fun p => if p.1 = k then (k, v) else p)
  else d ++ [(k, v)]

/-- Strict lexicographic order on code-point sequences: Python's `<` on `str`. -/
def charsLt : List Char → List Char → Bool
  | [], [] => false
  | [], _ :: _ => true
  | _ :: _, [] => false
  | a :: as, b :: bs =>
    if a.toNat < b.toNat then true
    else if b.toNat < a.toNat then false
    else charsLt as bs

/-- Python `<` on strings (lexicographic on code points). -/
def strLt (a b : String) : Bool := charsLt a.data b.data

/-- Python tuple order on `(key, value)` pairs, as used by
`sorted(params.items())`: key first, value as tie-break. -/
def pairLe (p q : String × String) : Bool :=
  if p.1 = q.1 then (strLt p.2 q.2 || p.2 == q.2) else strLt p.1 q.1

/-- Insert a pair into an already-sorted list (stable). -/
def insertPair (p : String × String) : List (String × String) → List (String × String)
  | [] => [p]
  | q :: qs => if pairLe p q then p :: q :: qs else q :: insertPair p qs

/-- `sorted(d.items())`: stable sort of the entries in tuple order. -/
def sortPairs (d : Dict) : List (String × String) :=
  d.foldr insertPair []

/-- Python `or` on strings: the first operand if non-empty (truthy), else the
second. -/
def pyOr (a b : String) : String := if a = "" then b else a

/-- Python `str.strip()` with no argument: remove leading and trailing
whitespace. -/
def pyStrip (s : String) : String :=
  String.mk
    (((s.data.dropWhile Char.isWhitespace).reverse.dropWhile
      Char.isWhitespace).reverse)

/-! ## Request signer (`parser/api/auth.py`, class `OKAuth`) -/

/-- The credential material held by `OKAuth.__init__`. -/
structure OKAuth where
  client_id : String
  client_secret : String
  access_token : String
  public_key : String
  session_key : String
  session_secret_key : String
deriving DecidableEq, Repr

/-- `OKAuth.application_key`: `self._public_key or self._client_id`. -/
def OKAuth.application_key (auth : OKAuth) : String :=
  pyOr auth.public_key auth.client_id

/-- `OKAuth._calc_secret`: md5 hex of `token + client_secret`. -/
def OKAuth.calc_secret (auth : OKAuth) (token : String) : String :=
  md5HexLower (token ++ auth.client_secret)

/-- `OKAuth.generate_sig`: pick the secret key (explicit session secret,
else derived from the session key, else from the access token), sort the
given parameters, concatenate `k=v` pairs with no separator, append the
secret, md5-hex the result. -/
def OKAuth.generate_sig (auth : OKAuth) (params : Dict) : String :=
  let secret_key :=
    if auth.session_secret_key ≠ "" then auth.session_secret_key
    else if auth.session_key ≠ "" then auth.calc_secret auth.session_key
    else auth.calc_secret auth.access_token
  let params_str := String.join ((sortPairs params).map (fun p => p.1 ++ "=" ++ p.2))
  md5HexLower (params_str ++ secret_key)

/-- `OKAuth.sign_params`: copy the given params, add `application_key`, then
compute `sig` over that augmented mapping (the signature therefore covers
`application_key`), add it, and finally add `session_key` (priority) or
`access_token` when configured. -/
def OKAuth.sign_params (auth : OKAuth) (params : Dict) : Dict :=
  let signed := dset params "application_key" auth.application_key
  let signed := dset signed "sig" (auth.generate_sig signed)
  if auth.session_key ≠ "" then dset signed "session_key" auth.session_key
  else if auth.access_token ≠ "" then dset signed "access_token" auth.access_token
  else signed

/-- The secret key exactly as the specification claim words it: the explicit
session-secret if present, else the digest of session-key + client-secret,
else the digest of access-token + client-secret. -/
def secretKeyClaimed (auth : OKAuth) : String :=
  if auth.session_secret_key ≠ "" then auth.session_secret_key
  else if auth.session_key ≠ "" then
    md5HexLower (auth.session_key ++ auth.client_secret)
  else md5HexLower (auth.access_token ++ auth.client_secret)

/-- The signature exactly as the specification claim words it: the
lowercase-hex 128-bit digest of the lexicographically key-sorted
concatenation of `key=value` pairs of `ps` (no separators) followed by the
secret key. -/
def sigClaimed (auth : OKAuth) (ps : Dict) : String :=
  md5HexLower
    (String.join ((sortPairs ps).map (fun p => p.1 ++ "=" ++ p.2)) ++
      secretKeyClaimed auth)

/-- The signing procedure exactly as the specification claim words it: the
signature is computed over **the given parameters only**, and
`application_key` and `sig` are added afterwards to build the final set,
together with `session_key` if set, else `access_token` if set.
(Refinement counterpart of `OKAuth.sign_params`, for comparison.) -/
def OKAuth.sign_params_claimed (auth : OKAuth) (params : Dict) : Dict :=
  let sig := sigClaimed auth params
  let signed := dset params "application_key" (pyOr auth.public_key auth.client_id)
  let signed := dset signed "sig" sig
  if auth.session_key ≠ "" then dset signed "session_key" auth.session_key
  else if auth.access_token ≠ "" then dset signed "access_token" auth.access_token
  else signed

/-- The signing procedure as amended: identical to the claimed one except
that the signature is computed over the given parameters **augmented with
`application_key`** (which is what the code signs). -/
def OKAuth.sign_params_amended (auth : OKAuth) (params : Dict) : Dict :=
  let sig := sigClaimed auth
    (dset params "application_key" (pyOr auth.public_key auth.client_id))
  let signed := dset params "application_key" (pyOr auth.public_key auth.client_id)
  let signed := dset signed "sig" sig
  if auth.session_key ≠ "" then dset signed "session_key" auth.session_key
  else if auth.access_token ≠ "" then dset signed "access_token" auth.access_token
  else signed

/-! ## Rate-limited transport (`parser/api/client.py`, `OKApiClient.request`)

The HTTP round trip is external input; we model its outcome as data.  The
error taxonomy mirrors the distinct Python exception classes escaping
`request`:
- `transport`: a `requests.RequestException` from the GET itself (network
  failure / timeout) or from `raise_for_status()` (non-2xx status,
  `requests.HTTPError`);
- `protocol`: `requests.exceptions.JSONDecodeError` raised by
  `response.json()` on an undecodable body (a class distinct from
  `HTTPError`/`ConnectionError`, so callers can tell the outcomes apart);
- `api c m`: the `OKApiError(code, message)` raised for a decoded body
  carrying an `error_code` field. -/

inductive ReqError where
  | transport
  | protocol
  | api (code : Int) (msg : String)
deriving DecidableEq, Repr

/-- The decoded 2xx body: undecodable, literal JSON `null`, or a value
together with the optional `error_code` / `error_msg` fields found in it. -/
inductive BodyDecode (β : Type) where
  | undecodable
  | null
  | value (errInfo : Option (Int × Option String)) (payload : β)

/-- Outcome of the HTTP round trip performed by `requests.get` +
`raise_for_status()`. -/
inductive RoundTrip (β : Type) where
  | netFailure
  | httpError
  | ok (body : BodyDecode β)

/-- `OKApiClient.request`, given the round-trip outcome `rt`, the wall-clock
time `now` read by `time.time()` after a successful status check, and the
current `_last_request_time` cursor `st`.  Returns the call's result
(`Except` models the escaping exception; `none` models the `return None` on
a null body) paired with the new cursor value.  The cursor write
`self._last_request_time = time.time()` sits after `raise_for_status()` and
before `response.json()` in the source, which the order of operations here
reproduces. -/
def request {β : Type} (rt : RoundTrip β) (now : Nat) (st : Nat) :
    Except ReqError (Option β) × Nat :=
  match rt with
  | .netFailure => (.error .transport, st)
  | .httpError => (.error .transport, st)
  | .ok body =>
    let st1 := now
    match body with
    | .undecodable => (.error .protocol, st1)
    | .null => (.ok none, st1)
    | .value errInfo payload =>
      match errInfo with
      | some (code, msg) => (.error (.api code (msg.getD "Unknown error")), st1)
      | none => (.ok (some payload), st1)

/-! ## Comment normalizer (`parser/models/comment.py`, `Comment.from_api`)

`datetime` instants are modelled at epoch-millisecond precision as `Int`
(`datetime.fromtimestamp(created_ms / 1000, tz=timezone.utc)` keeps exactly
the milliseconds for integer `created_ms`); `now` is the ingestion-time
default `datetime.now(timezone.utc)`. -/

/-- A JSON value found under the `created_ms` / `date` wire fields: either a
Python `int` or something of another type (`isinstance(x, int)` fails). -/
inductive JVal where
  | int (n : Int)
  | nonint
deriving DecidableEq, Repr

/-- The embedded `author` object of a raw comment payload
(`data.get("author", ...)`); an absent key behaves like the empty dict. -/
structure AuthorObj where
  uid : Option String
  name : Option String
deriving DecidableEq, Repr

/-- The raw comment payload fields read by `Comment.from_api`; `none` models
an absent key. -/
structure CommentPayload where
  id : Option String
  author : Option AuthorObj
  author_id : Option String
  author_name : Option String
  created_ms : Option JVal
  date : Option JVal
  text : Option String
  message : Option String
  likes_count : Option Int
  like_count : Option Int
  reply_to_comment_id : Option String
deriving DecidableEq, Repr

/-- An entry of the author-lookup map (`users_map` values): the name fields
of a `users.getInfo` record. -/
structure UserInfo where
  name : Option String
  first_name : Option String
  last_name : Option String
deriving DecidableEq, Repr

/-- The `Comment` dataclass. -/
structure Comment where
  id : String
  discussion_id : String
  group_id : String
  author_id : String
  author_name : String
  text : String
  created_at : Int
  likes_count : Int
  reply_to_id : Option String
  discussion_text : Option String
deriving DecidableEq, Repr

/-- `Comment.from_api`.  The `user_info` argument is the author-lookup map
entry: `none` models the falsy empty dict `users_map.get(..., ...)` falls
back to, so the `if user_info:` branch is taken exactly when it is `some`. -/
def Comment.from_api (data : CommentPayload) (discussion_id group_id : String)
    (user_info : Option UserInfo) (discussion_text : Option String)
    (now : Int) : Comment :=
  let author := data.author
  let author_id := (author.bind (·.uid)).getD (data.author_id.getD "")
  let author_name :=
    match user_info with
    | some ui =>
      let n := ui.name.getD ""
      if n = "" then
        pyStrip ((ui.first_name.getD "") ++ " " ++ (ui.last_name.getD ""))
      else n
    | none => (author.bind (·.name)).getD (data.author_name.getD "")
  let created := (data.created_ms.orElse (fun _ => data.date)).getD (JVal.int 0)
  let created_at :=
    match created with
    | .int n => if n > 0 then n else now
    | .nonint => now
  { id := data.id.getD ""
    discussion_id := discussion_id
    group_id := group_id
    author_id := author_id
    author_name := pyOr author_name ""
    text := (data.text.orElse (fun _ => data.message)).getD ""
    created_at := created_at
    likes_count := (data.likes_count.orElse (fun _ => data.like_count)).getD 0
    reply_to_id := data.reply_to_comment_id
    discussion_text := discussion_text }

/-! ## Client endpoints (`parser/api/client.py`)

`get_comments` / `get_discussions` / `get_users_info` validate their inputs
and then call `self.request`.  The network is external input, so each
endpoint takes the would-be result of its `request` call as an oracle
argument (exactly the `Except ReqError (Option β)` that `request` produces).
Alongside its result each endpoint returns the number of `request` calls it
issued, so "raised before any network request" is the count being `0`. -/

/-- Python `str.isdigit()` on the strings at hand: non-empty and all digits. -/
def pyIsdigit (s : String) : Bool := s ≠ "" && s.data.all Char.isDigit

/-- The `group_id` validation `group_id and str(group_id).strip().isdigit()`. -/
def validGroupId (g : String) : Bool := g ≠ "" && pyIsdigit (pyStrip g)

/-- The `discussion_id` validation `discussion_id and str(discussion_id).strip()`. -/
def validDiscussionId (d : String) : Bool := d ≠ "" && pyStrip d ≠ ""

/-- An exception escaping a client endpoint: the `ValueError` raised by
validation, or a propagated `request` failure. -/
inductive CallError where
  | valueError (msg : String)
  | req (e : ReqError)
deriving DecidableEq, Repr

/-- A record of a `users.getInfo` response list. -/
structure UserRec where
  uid : Option String
  name : Option String
  first_name : Option String
  last_name : Option String
deriving DecidableEq, Repr

/-- Generic keyed update on an association-list map (Python dict assignment). -/
def upd {α : Type} (m : List (String × α)) (k : String) (v : α) :
    List (String × α) :=
  if m.any (fun p => p.1 = k) then m.map (fun p => if p.1 = k then (k, v) else p)
  else m ++ [(k, v)]

/-- Keyed lookup on an association-list map (Python `dict.get`). -/
def alookup {α : Type} : List (String × α) → String → Option α
  | [], _ => none
  | (k0, v) :: rest, k => if k0 = k then some v else alookup rest k

/-- `list(set(...))` modelled as first-occurrence deduplication (CPython's
set iteration order is unspecified; only membership matters downstream). -/
def listDedup (l : List String) : List String :=
  l.foldl (fun acc x => if acc.contains x then acc else acc ++ [x]) []

/-- `OKApiClient.get_users_info`: returns the empty map without a request
for an empty or fully-invalid id list, truncates to 100 ids, then maps each
returned record with a truthy `uid` to its entry (later duplicates win, as
in a dict comprehension).  The response is the already-list-wrapped body. -/
def get_users_info (resp : Except ReqError (Option (List UserRec)))
    (user_ids : List String) : Except ReqError (List (String × UserRec)) × Nat :=
  if user_ids.isEmpty then (.ok [], 0)
  else
    let valid_ids :=
      (user_ids.filter (fun uid => uid ≠ "" && pyIsdigit (pyStrip uid))).map (fun uid => pyStrip uid)
    if valid_ids.isEmpty then (.ok [], 0)
    else
      match resp with
      | .error e => (.error e, 1)
      | .ok none => (.ok [], 1)
      | .ok (some users) =>
        (.ok (users.foldl
          (fun acc u =>
            match u.uid with
            | some s => if s ≠ "" then upd acc s u else acc
            | none => acc) []), 1)

/-- The decoded body of `discussions.getComments`: the `comments` key when
present. -/
structure CommentsBody where
  comments : Option (List CommentPayload)
deriving DecidableEq, Repr

/-- `OKApiClient.get_comments`: validation in source order (empty
`discussion_id`, non-digit `group_id`, `count` outside `[1, 1000]`,
negative `offset` — each raising `ValueError` before any request), then the
comment fetch, the `None` → `[]` mapping, batch author lookup, and
per-comment normalization via `Comment.from_api`. -/
def get_comments (commentsResp : Except ReqError (Option CommentsBody))
    (usersResp : Except ReqError (Option (List UserRec)))
    (discussion_id group_id discussion_type : String)
    (count offset : Int) (sort_order : String)
    (discussion_text : Option String) (now : Int) :
    Except CallError (List Comment) × Nat :=
  if discussion_id = "" ∨ pyStrip discussion_id = "" then
    (.error (.valueError "discussion_id cannot be empty"), 0)
  else if validGroupId group_id = false then
    (.error (.valueError ("Invalid group_id: " ++ group_id ++ ". Must contain only digits.")), 0)
  else if count < 1 ∨ count > 1000 then
    (.error (.valueError ("count must be between 1 and 1000, got " ++ toString count)), 0)
  else if offset < 0 then
    (.error (.valueError ("offset must be >= 0, got " ++ toString offset)), 0)
  else
    match commentsResp with
    | .error e => (.error (.req e), 1)
    | .ok none => (.ok [], 1)
    | .ok (some body) =>
      let comments_data := body.comments.getD []
      let author_ids := listDedup
        ((comments_data.filter (fun c => c.author_id.getD "" ≠ "")).map
          (fun c => c.author_id.getD ""))
      match get_users_info usersResp author_ids with
      | (.error e, ureq) => (.error (.req e), 1 + ureq)
      | (.ok users_map, ureq) =>
        (.ok (comments_data.map (fun c =>
          Comment.from_api c discussion_id group_id
            ((alookup users_map (c.author_id.getD "")).map
              (fun u => UserInfo.mk u.name u.first_name u.last_name))
            discussion_text now)), 1 + ureq)

/-- A raw discussion entry of the group feed, with the fields the client and
orchestrator read; `none` models an absent key. -/
structure DiscData where
  object_id : Option String
  id : Option String
  object_type : Option String
  owner_uid : Option String
  title : Option String
  message : Option String
deriving DecidableEq, Repr

/-- The decoded body of `discussions.getList`: either a dict carrying a
`discussions` or `topics` list, or directly a list.  A `none` element is
a falsy entry, skipped by `if not d: continue`. -/
inductive DiscListBody where
  | dict (discussions : Option (List (Option DiscData)))
      (topics : Option (List (Option DiscData)))
  | list (items : List (Option DiscData))
deriving DecidableEq, Repr

/-- `OKApiClient.get_discussions`: the same validation sequence as
`get_comments` (minus the discussion id), then one `discussions.getList`
request; the body's `discussions`-else-`topics` list is collected with
falsy entries skipped (ownership filtering is logged but performs no
filtering). -/
def get_discussions (resp : Except ReqError (Option DiscListBody))
    (group_id : String) (count offset : Int) :
    Except CallError (List DiscData) × Nat :=
  if validGroupId group_id = false then
    (.error (.valueError ("Invalid group_id: " ++ group_id ++ ". Must contain only digits.")), 0)
  else if count < 1 ∨ count > 1000 then
    (.error (.valueError ("count must be between 1 and 1000, got " ++ toString count)), 0)
  else if offset < 0 then
    (.error (.valueError ("offset must be >= 0, got " ++ toString offset)), 0)
  else
    match resp with
    | .error e => (.error (.req e), 1)
    | .ok none => (.ok [], 1)
    | .ok (some body) =>
      let discussions :=
        match body with
        | .dict ds ts => (ds.orElse (fun _ => ts)).getD []
        | .list items => items
      (.ok (discussions.filterMap (fun d => d)), 1)

/-! ## Comment repository (`parser/repositories/comment_repo.py`)

The `comments` collection has a unique index on `id`
(`_ensure_indexes`), so it is modelled as an association list from `id` to
the stored document; the repository invariant is that its keys are
duplicate-free.  `upsert_many` builds one `UpdateOne({"id": c.id},
{"$set": doc}, upsert=True)` per comment and executes them in a single
ordered `bulk_write`, returning `upserted_count + modified_count`. -/

/-- The stored comment document, i.e. `Comment.to_dict`'s fields. -/
structure CommentDoc where
  id : String
  discussion_id : String
  group_id : String
  author_id : String
  author_name : String
  text : String
  created_at : Int
  likes_count : Int
  reply_to_id : Option String
  discussion_text : Option String
deriving DecidableEq, Repr

/-- `Comment.to_dict`. -/
def Comment.to_dict (c : Comment) : CommentDoc :=
  ⟨c.id, c.discussion_id, c.group_id, c.author_id, c.author_name, c.text,
   c.created_at, c.likes_count, c.reply_to_id, c.discussion_text⟩

/-- The `comments` collection: stored documents keyed by their unique `id`. -/
abbrev Coll := List (String × CommentDoc)

/-- Find-by-id on the collection (first match). -/
def collFind : Coll → String → Option CommentDoc
  | [], _ => none
  | (k, v) :: rest, cid => if k = cid then some v else collFind rest cid

/-- The stored ids, in collection order. -/
def collKeys (st : Coll) : List String := st.map (·.1)

/-- One `UpdateOne({"id": cid}, {"$set": doc}, upsert=True)`: returns the
new collection and the `(upserted, modified)` contribution — an insert when
the id is absent, a modification exactly when the stored document differs
from `doc`. -/
def applyUpdateOne (st : Coll) (cid : String) (doc : CommentDoc) :
    Coll × Nat × Nat :=
  match collFind st cid with
  | none => (st ++ [(cid, doc)], 1, 0)
  | some old =>
    if old = doc then (st, 0, 0)
    else (st.map (fun p => if p.1 = cid then (cid, doc) else p), 0, 1)

/-- The single ordered `bulk_write` over the built operations, accumulating
`upserted_count` and `modified_count`. -/
def bulk_write : Coll → List Comment → Coll × Nat × Nat
  | st, [] => (st, 0, 0)
  | st, c :: rest =>
    let r := applyUpdateOne st c.id (Comment.to_dict c)
    let rr := bulk_write r.1 rest
    (rr.1, r.2.1 + rr.2.1, r.2.2 + rr.2.2)

/-- `CommentRepository.upsert_many`: `0` for an empty list, else one
`bulk_write` whose returned count is `upserted_count + modified_count`. -/
def upsert_many (st : Coll) (comments : List Comment) : Coll × Nat :=
  if comments.isEmpty then (st, 0)
  else
    let r := bulk_write st comments
    (r.1, r.2.1 + r.2.2)

/-! ## Ingestion orchestrator (`parser/services/parser_service.py`)

`parse_all_discussions` lists the group's discussions (here: the oracle
list argument), optionally truncates, and runs the per-discussion loop.
The body of the `try` block — `Discussion.from_api` + discussion upsert +
`parse_discussion` (comment fetch, normalization and bulk upsert, returning
the saved-comments count) — performs I/O, so it is abstracted as the
`process` oracle: `.ok n` models a normal return of `n` saved comments and
`.error` a raised exception, which the `except Exception` arm turns into a
`continue`.  The diagnostic search for a hard-coded discussion id and all
logging are effect-free and omitted. -/

/-- `str(discussion.get("object_id", discussion.get("id", "")))`. -/
def discussionIdOf (d : DiscData) : String :=
  (d.object_id.orElse (fun _ => d.id)).getD ""

/-- Python truthiness of the optional `max_discussions` argument:
`None` and `0` are both falsy. -/
def optTruthy (m : Option Nat) : Bool :=
  match m with
  | none => false
  | some n => n != 0

/-- The per-discussion loop of `parse_all_discussions`, carrying
`(parsed_discussions, total_comments)`: skips falsy entries and entries
without a resolvable id, counts a success, and catches any `process`
exception and continues. -/
def processLoop (process : DiscData → Except String Nat) :
    List (Option DiscData) → Nat → Nat → Nat × Nat
  | [], parsed, total => (parsed, total)
  | none :: rest, parsed, total => processLoop process rest parsed total
  | some d :: rest, parsed, total =>
    if discussionIdOf d = "" then processLoop process rest parsed total
    else
      match process d with
      | .error _ => processLoop process rest parsed total
      | .ok cnt => processLoop process rest (parsed + 1) (total + cnt)

/-- `ParserService.parse_all_discussions`: empty listing ends with
`(0, 0)`; `if max_discussions:` truncates only for a truthy cap; then the
per-discussion loop runs. -/
def parse_all_discussions (process : DiscData → Except String Nat)
    (max_discussions : Option Nat) (discussions : List (Option DiscData)) :
    Nat × Nat :=
  if discussions.isEmpty then (0, 0)
  else
    let ds :=
      if optTruthy max_discussions then discussions.take (max_discussions.getD 0)
      else discussions
    processLoop process ds 0 0

/-- The summary dict returned by `ParserService.full_parse`. -/
structure FullParseResult where
  group : String
  discussions_parsed : Nat
  comments_saved : Nat
deriving DecidableEq, Repr

/-- `ParserService.full_parse`: parse the group (abstracted to its resolved
`name` and `uid`), run `parse_all_discussions` with the same cap, and
report `group.name or group.uid` with both counts. -/
def full_parse (group_name group_uid : String)
    (process : DiscData → Except String Nat) (max_discussions : Option Nat)
    (discussions : List (Option DiscData)) : FullParseResult :=
  let r := parse_all_discussions process max_discussions discussions
  ⟨pyOr group_name group_uid, r.1, r.2⟩

/-! ## Helper lemmas -/

/-- Dropping one failing discussion from the loop's input leaves the loop's
result unchanged, whatever the accumulators. -/
theorem processLoop_drop_failed (process : DiscData → Except String Nat)
    (d : DiscData) (e : String) (hd : process d = .error e) :
    ∀ (l1 l2 : List (Option DiscData)) (parsed total : Nat),
      processLoop process (l1 ++ some d :: l2) parsed total =
        processLoop process (l1 ++ l2) parsed total := by
  intro l1
  induction l1 with
  | nil =>
    intro l2 parsed total
    by_cases h : discussionIdOf d = ""
    · simp [processLoop, h]
    · simp [processLoop, h, hd]
  | cons od rest ih =>
    intro l2 parsed total
    match od with
    | none => simpa [processLoop] using ih l2 parsed total
    | some d' =>
      by_cases h : discussionIdOf d' = ""
      · simpa [processLoop, h] using ih l2 parsed total
      · cases hp : process d' with
        | error e' => simpa [processLoop, h, hp] using ih l2 parsed total
        | ok cnt => simpa [processLoop, h, hp] using ih l2 (parsed + 1) (total + cnt)

/-! ## Claims -/

/-- **C1** (partial-failure isolation): in `parse_all_discussions`, when
processing of one discussion raises (here: `process d` returns `.error e`,
modelling any exception inside the `try` block — normalize, discussion
upsert, comment fetch, bulk upsert), the run does not abort: the returned
`(discussions_parsed, comments_saved)` pair equals the one obtained on the
list without that discussion, so the counts reflect exactly the
successfully processed discussions and exclude the failed one's comments. -/
theorem parse_all_discussions_isolates_failures
    (process : DiscData → Except String Nat) (d : DiscData) (e : String)
    (l1 l2 : List (Option DiscData)) (hd : process d = .error e) :
    parse_all_discussions process none (l1 ++ some d :: l2) =
      parse_all_discussions process none (l1 ++ l2) := by
  unfold parse_all_discussions
  by_cases h2 : (l1 ++ l2).isEmpty
  · have h1 : l1 = [] := by
      cases l1 with
      | nil => rfl
      | cons a b => simp at h2
    subst h1
    have h3 : l2 = [] := by
      cases l2 with
      | nil => rfl
      | cons a b => simp at h2
    subst h3
    show processLoop process [some d] 0 0 = (0, 0)
    by_cases h : discussionIdOf d = ""
    · simp [processLoop, h]
    · simp [processLoop, h, hd]
  · have hne : (l1 ++ some d :: l2).isEmpty = false := by cases l1 <;> rfl
    rw [hne, if_neg h2]
    show processLoop process (l1 ++ some d :: l2) 0 0 =
      processLoop process (l1 ++ l2) 0 0
    exact processLoop_drop_failed process d e hd l1 l2 0 0

/-- A process oracle for the C1 witness: fails exactly on the discussion
whose `object_id` is `"bad"`, else saves 3 comments. -/
def witnessProcess : DiscData → Except String Nat := fun d =>
  if d.object_id = some "bad" then .error "boom" else .ok 3

/-- Closed instance of C1: a failing middle discussion is skipped and the
run's counts equal those of the list without it. -/
theorem parse_all_discussions_isolates_failures_witness :
    parse_all_discussions witnessProcess none
        ([some ⟨some "a", none, none, none, none, none⟩] ++
          some ⟨some "bad", none, none, none, none, none⟩ ::
            [some ⟨some "b", none, none, none, none, none⟩]) =
      parse_all_discussions witnessProcess none
        ([some ⟨some "a", none, none, none, none, none⟩] ++
          [some ⟨some "b", none, none, none, none, none⟩]) :=
  parse_all_discussions_isolates_failures witnessProcess
    ⟨some "bad", none, none, none, none, none⟩ "boom"
    [some ⟨some "a", none, none, none, none, none⟩]
    [some ⟨some "b", none, none, none, none, none⟩] rfl

/-- **C9** (cap truncation): with a configured cap `0 < M < L`,
`parse_all_discussions` produces exactly the result of running the
per-discussion loop on the first `M` entries in listing order — the
remaining `L - M` entries are ignored and no error is raised. -/
theorem parse_all_discussions_cap_truncation
    (process : DiscData → Except String Nat) (M : Nat)
    (l : List (Option DiscData)) (h1 : 0 < M) (h2 : M < l.length) :
    parse_all_discussions process (some M) l =
      parse_all_discussions process none (l.take M) := by
  unfold parse_all_discussions
  have hne : l.isEmpty = false := by
    cases l
    · simp at h2
    · rfl
  have htk : (l.take M).isEmpty = false := by
    cases l with
    | nil => simp at h2
    | cons x xs =>
      cases M with
      | zero => exact absurd h1 (by simp)
      | succ m => rfl
  have htr : optTruthy (some M) = true := by
    simp [optTruthy]
    omega
  rw [hne, htk, htr]
  simp [optTruthy]

/-- Closed instance of C9: with `L = 3` and `M = 1`, only the first
discussion is processed. -/
theorem parse_all_discussions_cap_truncation_witness :
    0 < 1 ∧ 1 < 3 ∧
      parse_all_discussions witnessProcess (some 1)
          [some ⟨some "a", none, none, none, none, none⟩,
           some ⟨some "bad", none, none, none, none, none⟩,
           some ⟨some "b", none, none, none, none, none⟩] =
        parse_all_discussions witnessProcess none
          ([some ⟨some "a", none, none, none, none, none⟩,
            some ⟨some "bad", none, none, none, none, none⟩,
            some ⟨some "b", none, none, none, none, none⟩].take 1) :=
  ⟨by decide, by decide,
    parse_all_discussions_cap_truncation witnessProcess 1
      [some ⟨some "a", none, none, none, none, none⟩,
       some ⟨some "bad", none, none, none, none, none⟩,
       some ⟨some "b", none, none, none, none, none⟩]
      (by decide) (by decide)⟩

/-- **C10** (zero-cap edge case): `max_discussions = 0` is falsy in
`if max_discussions:`, so a cap of `0` disables truncation entirely — both
`parse_all_discussions` and `full_parse` then behave exactly as with no cap
and process every discussion; a cap of `0` cannot request an empty run. -/
theorem zero_cap_disables_truncation :
    (∀ (process : DiscData → Except String Nat)
        (discussions : List (Option DiscData)),
      parse_all_discussions process (some 0) discussions =
        parse_all_discussions process none discussions) ∧
    (∀ (group_name group_uid : String)
        (process : DiscData → Except String Nat)
        (discussions : List (Option DiscData)),
      full_parse group_name group_uid process (some 0) discussions =
        full_parse group_name group_uid process none discussions) :=
  ⟨fun _ _ => rfl, fun _ _ _ _ => rfl⟩

/-- **C4, counterexample**: the claim says every failing call leaves the
last-request-time cursor unchanged, but the cursor write happens before
body decoding: on an undecodable 2xx body (a `ProtocolError` failure) the
cursor moves from `0` to the request's completion time `5`. -/
theorem request_cursor_counterexample :
    (request (RoundTrip.ok BodyDecode.undecodable : RoundTrip Unit) 5 0).1 =
        Except.error ReqError.protocol ∧
      (request (RoundTrip.ok BodyDecode.undecodable : RoundTrip Unit) 5 0).2 ≠ 0 :=
  ⟨rfl, by decide⟩

/-- **C4, amended**: the cursor is advanced exactly on a successful HTTP
round trip (2xx status): network failures and non-2xx statuses leave it
unchanged, while any received 2xx response — including one whose body is
undecodable or carries an API error code — advances it to the completion
time. -/
theorem request_cursor_amended {β : Type} :
    (∀ (now st : Nat), (request (RoundTrip.netFailure : RoundTrip β) now st).2 = st) ∧
    (∀ (now st : Nat), (request (RoundTrip.httpError : RoundTrip β) now st).2 = st) ∧
    (∀ (body : BodyDecode β) (now st : Nat),
      (request (RoundTrip.ok body) now st).2 = now) := by
  refine ⟨fun _ _ => rfl, fun _ _ => rfl, fun body now st => ?_⟩
  rcases body with _ | _ | ⟨ei, p⟩
  · rfl
  · rfl
  · rcases ei with _ | ⟨c, m⟩ <;> rfl

/-- **C5**: an undecodable body makes `request` fail with the protocol
error kind (`requests.exceptions.JSONDecodeError`), which is a different
failure kind than the transport kind raised for non-2xx statuses and
network failures, and different from the API-error kind raised for a
decoded body with an `error_code`; all three outcomes are distinguishable
by the caller. -/
theorem request_error_kinds_distinct {β : Type} :
    (∀ (now st : Nat),
      (request (RoundTrip.ok BodyDecode.undecodable : RoundTrip β) now st).1 =
        Except.error ReqError.protocol) ∧
    (∀ (now st : Nat),
      (request (RoundTrip.netFailure : RoundTrip β) now st).1 =
        Except.error ReqError.transport) ∧
    (∀ (now st : Nat),
      (request (RoundTrip.httpError : RoundTrip β) now st).1 =
        Except.error ReqError.transport) ∧
    (∀ (code : Int) (msg : Option String) (payload : β) (now st : Nat),
      (request (RoundTrip.ok (BodyDecode.value (some (code, msg)) payload)) now st).1 =
        Except.error (ReqError.api code (msg.getD "Unknown error"))) ∧
    ReqError.protocol ≠ ReqError.transport ∧
    (∀ (c : Int) (m : String), ReqError.protocol ≠ ReqError.api c m) ∧
    (∀ (c : Int) (m : String), ReqError.transport ≠ ReqError.api c m) := by
  refine ⟨fun _ _ => rfl, fun _ _ => rfl, fun _ _ => rfl, fun _ _ _ _ _ => rfl,
    by simp, fun c m => by simp, fun c m => by simp⟩

set_option maxRecDepth 1000000 in
/-- **C2, counterexample**: the claim computes the signature over the given
parameters only, but `sign_params` adds `application_key` to the mapping
*before* calling `generate_sig` on it, so the signature also covers
`application_key`.  On the client `⟨id "1", secret "sec", token "tok"⟩` and
parameters `{"a": "b"}` the two procedures produce different `sig` values,
hence different final mappings. -/
theorem sign_params_counterexample :
    OKAuth.sign_params ⟨"1", "sec", "tok", "", "", ""⟩ [("a", "b")] ≠
      OKAuth.sign_params_claimed ⟨"1", "sec", "tok", "", "", ""⟩ [("a", "b")] := by
  decide

/-- **C2, amended**: `sign_params` returns the given mapping augmented with
`application_key` (the public key if present, else the client id), a `sig`,
and `session_key` if set else `access_token` if set; the `sig` is the
lowercase-hex 128-bit digest of the lexicographically key-sorted
concatenation of `key=value` pairs of the given parameters **augmented with
`application_key`** (no separators) followed by the secret key, where the
secret key is the explicit session-secret if present, else the digest of
session-key + client-secret, else the digest of access-token +
client-secret. -/
theorem sign_params_amended_correct (auth : OKAuth) (params : Dict) :
    OKAuth.sign_params auth params = OKAuth.sign_params_amended auth params := rfl

/-- Helper: once validation passes, `get_comments` issues at least one
network request. -/
theorem get_comments_snd_pos
    (commentsResp : Except ReqError (Option CommentsBody))
    (usersResp : Except ReqError (Option (List UserRec)))
    (d g dt : String) (count offset : Int) (so : String)
    (dtext : Option String) (now : Int)
    (hd1 : ¬(d = "" ∨ pyStrip d = "")) (hg1 : ¬(validGroupId g = false))
    (hc : ¬(count < 1 ∨ count > 1000)) (ho1 : ¬(offset < 0)) :
    1 ≤ (get_comments commentsResp usersResp d g dt count offset so dtext now).2 := by
  simp only [get_comments]
  rw [if_neg hd1, if_neg hg1, if_neg hc, if_neg ho1]
  split
  · exact Nat.le_refl 1
  · exact Nat.le_refl 1
  · split
    · exact Nat.le_add_right 1 _
    · exact Nat.le_add_right 1 _

/-- **C6** (pagination-count validation): for both `get_comments` and
`get_discussions`, a `count` outside `[1, 1000]` (in particular `0` and
`1001`) makes the call fail with a `ValueError` while issuing zero network
requests; and with valid inputs a `count` within `[1, 1000]` passes
validation, the call proceeding to issue a request. -/
theorem count_validation_before_request
    (commentsResp : Except ReqError (Option CommentsBody))
    (usersResp : Except ReqError (Option (List UserRec)))
    (dresp : Except ReqError (Option DiscListBody))
    (d g dt so : String) (count offset : Int) (dtext : Option String)
    (now : Int) :
    (count < 1 ∨ count > 1000 →
      ((∃ m, (get_comments commentsResp usersResp d g dt count offset so dtext now).1 =
          Except.error (CallError.valueError m)) ∧
        (get_comments commentsResp usersResp d g dt count offset so dtext now).2 = 0) ∧
      ((∃ m, (get_discussions dresp g count offset).1 =
          Except.error (CallError.valueError m)) ∧
        (get_discussions dresp g count offset).2 = 0)) ∧
    (validDiscussionId d = true → validGroupId g = true →
      1 ≤ count → count ≤ 1000 → 0 ≤ offset →
      1 ≤ (get_comments commentsResp usersResp d g dt count offset so dtext now).2 ∧
      1 ≤ (get_discussions dresp g count offset).2) := by
  constructor
  · intro hbad
    constructor
    · simp only [get_comments]
      by_cases h1 : (d = "" ∨ pyStrip d = "")
      · rw [if_pos h1]; exact ⟨⟨_, rfl⟩, rfl⟩
      · rw [if_neg h1]
        by_cases h2 : validGroupId g = false
        · rw [if_pos h2]; exact ⟨⟨_, rfl⟩, rfl⟩
        · rw [if_neg h2, if_pos hbad]; exact ⟨⟨_, rfl⟩, rfl⟩
    · simp only [get_discussions]
      by_cases h2 : validGroupId g = false
      · rw [if_pos h2]; exact ⟨⟨_, rfl⟩, rfl⟩
      · rw [if_neg h2, if_pos hbad]; exact ⟨⟨_, rfl⟩, rfl⟩
  · intro hd hg hc1 hc2 ho
    have hd1 : ¬(d = "" ∨ pyStrip d = "") := by
      simp only [validDiscussionId, Bool.and_eq_true, decide_eq_true_eq, ne_eq] at hd
      push_neg
      exact hd
    have hg1 : ¬(validGroupId g = false) := by simp [hg]
    have hc : ¬(count < 1 ∨ count > 1000) := by push_neg; exact ⟨hc1, hc2⟩
    have ho1 : ¬(offset < 0) := by omega
    refine ⟨get_comments_snd_pos commentsResp usersResp d g dt count offset so
      dtext now hd1 hg1 hc ho1, ?_⟩
    simp only [get_discussions]
    rw [if_neg hg1, if_neg hc, if_neg ho1]
    cases dresp with
    | error e => exact Nat.le_refl 1
    | ok ob => cases ob <;> exact Nat.le_refl 1

/-- Closed instance of C6: with valid ids, `count = 0` and `count = 1001`
each fail with a `ValueError` and zero requests issued, while `count = 100`
passes validation and a request goes out. -/
theorem count_validation_before_request_witness :
    (((∃ m, (get_comments (Except.ok none) (Except.ok none) "57" "1" "GROUP_TOPIC"
          0 0 "LAST" none 0).1 = Except.error (CallError.valueError m)) ∧
        (get_comments (Except.ok none) (Except.ok none) "57" "1" "GROUP_TOPIC"
          0 0 "LAST" none 0).2 = 0) ∧
      ((∃ m, (get_discussions (Except.ok none) "1" 0 0).1 =
          Except.error (CallError.valueError m)) ∧
        (get_discussions (Except.ok none) "1" 0 0).2 = 0)) ∧
    (((∃ m, (get_comments (Except.ok none) (Except.ok none) "57" "1" "GROUP_TOPIC"
          1001 0 "LAST" none 0).1 = Except.error (CallError.valueError m)) ∧
        (get_comments (Except.ok none) (Except.ok none) "57" "1" "GROUP_TOPIC"
          1001 0 "LAST" none 0).2 = 0) ∧
      ((∃ m, (get_discussions (Except.ok none) "1" 1001 0).1 =
          Except.error (CallError.valueError m)) ∧
        (get_discussions (Except.ok none) "1" 1001 0).2 = 0)) ∧
    (1 ≤ (get_comments (Except.ok none) (Except.ok none) "57" "1" "GROUP_TOPIC"
        100 0 "LAST" none 0).2 ∧
      1 ≤ (get_discussions (Except.ok none) "1" 100 0).2) :=
  ⟨(count_validation_before_request (Except.ok none) (Except.ok none)
      (Except.ok none) "57" "1" "GROUP_TOPIC" "LAST" 0 0 none 0).1
      (by decide),
    (count_validation_before_request (Except.ok none) (Except.ok none)
      (Except.ok none) "57" "1" "GROUP_TOPIC" "LAST" 1001 0 none 0).1
      (by decide),
    (count_validation_before_request (Except.ok none) (Except.ok none)
      (Except.ok none) "57" "1" "GROUP_TOPIC" "LAST" 100 0 none 0).2
      (by decide) (by decide) (by decide) (by decide) (by decide)⟩

/-- **C7** (null body is "no data", not a fault): a decoded body that is
literally `null` makes `request` return an absent result (`return None`)
rather than raise, and `get_comments` maps that absent result to the empty
comment list — for any valid discussion id, a null comment-listing body
yields `[]`. -/
theorem null_body_yields_empty
    (usersResp : Except ReqError (Option (List UserRec)))
    (d g dt so : String) (count offset : Int) (dtext : Option String)
    (now : Int) (rnow rst : Nat)
    (hd : validDiscussionId d = true) (hg : validGroupId g = true)
    (hc1 : 1 ≤ count) (hc2 : count ≤ 1000) (ho : 0 ≤ offset) :
    (∀ (β : Type) (now0 st0 : Nat),
      (request (RoundTrip.ok BodyDecode.null : RoundTrip β) now0 st0).1 =
        Except.ok none) ∧
    (get_comments (Except.ok none) usersResp d g dt count offset so dtext now).1 =
      Except.ok [] ∧
    (get_comments ((request (RoundTrip.ok BodyDecode.null : RoundTrip CommentsBody)
        rnow rst).1) usersResp d g dt count offset so dtext now).1 =
      Except.ok [] := by
  have hd1 : ¬(d = "" ∨ pyStrip d = "") := by
    simp only [validDiscussionId, Bool.and_eq_true, decide_eq_true_eq, ne_eq] at hd
    push_neg
    exact hd
  have hg1 : ¬(validGroupId g = false) := by simp [hg]
  have hc : ¬(count < 1 ∨ count > 1000) := by push_neg; exact ⟨hc1, hc2⟩
  have ho1 : ¬(offset < 0) := by omega
  have key : (get_comments (Except.ok none) usersResp d g dt count offset so
      dtext now).1 = Except.ok [] := by
    simp only [get_comments]
    rw [if_neg hd1, if_neg hg1, if_neg hc, if_neg ho1]
  exact ⟨fun β n s => rfl, key, key⟩

/-- Closed instance of C7: a null `discussions.getComments` body for
discussion `"57"` yields the empty list. -/
theorem null_body_yields_empty_witness :
    (∀ (β : Type) (now0 st0 : Nat),
      (request (RoundTrip.ok BodyDecode.null : RoundTrip β) now0 st0).1 =
        Except.ok none) ∧
    (get_comments (Except.ok none) (Except.ok none) "57" "1" "GROUP_TOPIC"
      100 0 "LAST" none 0).1 = Except.ok [] ∧
    (get_comments ((request (RoundTrip.ok BodyDecode.null : RoundTrip CommentsBody)
        7 3).1) (Except.ok none) "57" "1" "GROUP_TOPIC" 100 0 "LAST" none 0).1 =
      Except.ok [] :=
  null_body_yields_empty (Except.ok none) "57" "1" "GROUP_TOPIC" "LAST" 100 0
    none 0 7 3 (by decide) (by decide) (by decide) (by decide) (by decide)

/-- **C8** (comment normalization): the concrete payload
`{"id": "c1", "author_id": "9", "created_ms": 1700000000000, "text": "hi"}`
with an empty author-lookup map normalizes to `id = "c1"`,
`author_id = "9"`, `author_name = ""`, `text = "hi"` and `created_at` at
epoch-millis 1700000000000; in general `created_at` comes from
`created_ms` (falling back to the `date` field) whenever that value is a
positive integer and defaults to the ingestion time otherwise, and
`likes_count` is read from `likes_count` or `like_count`, defaulting to 0. -/
theorem comment_from_api_normalization :
    (∀ (d g : String) (dt : Option String) (now : Int),
      Comment.from_api
          ⟨some "c1", none, some "9", none, some (JVal.int 1700000000000),
            none, some "hi", none, none, none, none⟩ d g none dt now =
        ⟨"c1", d, g, "9", "", "hi", 1700000000000, 0, none, dt⟩) ∧
    (∀ (p : CommentPayload) (d g : String) (ui : Option UserInfo)
        (dt : Option String) (now : Int),
      (Comment.from_api p d g ui dt now).created_at =
        match (p.created_ms.orElse (fun _ => p.date)).getD (JVal.int 0) with
        | .int n => if n > 0 then n else now
        | .nonint => now) ∧
    (∀ (p : CommentPayload) (d g : String) (ui : Option UserInfo)
        (dt : Option String) (now : Int),
      (Comment.from_api p d g ui dt now).likes_count =
        (p.likes_count.orElse (fun _ => p.like_count)).getD 0) :=
  ⟨fun _ _ _ _ => rfl, fun _ _ _ _ _ _ => rfl, fun _ _ _ _ _ _ => rfl⟩

/-! ## Association-list lemmas for the comment collection -/

/-- The last comment of the list carrying the given id, i.e. the latest
value upserted for that id by `upsert_many`. -/
def lastFor : List Comment → String → Option Comment
  | [], _ => none
  | c :: rest, cid =>
    match lastFor rest cid with
    | some c' => some c'
    | none => if c.id = cid then some c else none

theorem collFind_append_last (st : Coll) (cid : String) (doc : CommentDoc)
    (h : collFind st cid = none) :
    collFind (st ++ [(cid, doc)]) cid = some doc := by
  induction st with
  | nil => simp [collFind]
  | cons p rest ih =>
    obtain ⟨k, v⟩ := p
    simp only [collFind] at h
    simp only [List.cons_append, collFind]
    by_cases hk : k = cid
    · rw [if_pos hk] at h
      exact absurd h (by simp)
    · rw [if_neg hk] at h
      rw [if_neg hk]
      exact ih h

theorem collFind_append_other (st : Coll) (cid cid' : String) (doc : CommentDoc)
    (h : cid' ≠ cid) :
    collFind (st ++ [(cid, doc)]) cid' = collFind st cid' := by
  induction st with
  | nil =>
    simp only [List.nil_append, collFind]
    rw [if_neg (fun hh => h hh.symm)]
  | cons p rest ih =>
    obtain ⟨k, v⟩ := p
    simp only [List.cons_append, collFind]
    by_cases hk : k = cid'
    · rw [if_pos hk, if_pos hk]
    · rw [if_neg hk, if_neg hk]
      exact ih

theorem collFind_setAll_self (st : Coll) (cid : String) (doc : CommentDoc)
    (h : collFind st cid ≠ none) :
    collFind (st.map (fun p => if p.1 = cid then (cid, doc) else p)) cid =
      some doc := by
  induction st with
  | nil => simp [collFind] at h
  | cons p rest ih =>
    obtain ⟨k, v⟩ := p
    by_cases hk : k = cid
    · simp only [List.map_cons]
      rw [show (if ((k, v) : String × CommentDoc).1 = cid then (cid, doc) else (k, v)) =
          (cid, doc) from by simp [hk]]
      simp [collFind]
    · simp only [List.map_cons]
      rw [show (if ((k, v) : String × CommentDoc).1 = cid then (cid, doc) else (k, v)) =
          (k, v) from by simp [hk]]
      simp only [collFind] at h ⊢
      rw [if_neg hk] at h
      rw [if_neg hk]
      exact ih h

theorem collFind_setAll_other (st : Coll) (cid cid' : String) (doc : CommentDoc)
    (h : cid' ≠ cid) :
    collFind (st.map (fun p => if p.1 = cid then (cid, doc) else p)) cid' =
      collFind st cid' := by
  induction st with
  | nil => rfl
  | cons p rest ih =>
    obtain ⟨k, v⟩ := p
    by_cases hk : k = cid
    · simp only [List.map_cons]
      rw [show (if ((k, v) : String × CommentDoc).1 = cid then (cid, doc) else (k, v)) =
          (cid, doc) from by simp [hk]]
      simp only [collFind]
      rw [if_neg (fun hh => h hh.symm), if_neg (fun hh => h (hk.symm.trans hh).symm)]
      exact ih
    · simp only [List.map_cons]
      rw [show (if ((k, v) : String × CommentDoc).1 = cid then (cid, doc) else (k, v)) =
          (k, v) from by simp [hk]]
      simp only [collFind]
      by_cases hk' : k = cid'
      · rw [if_pos hk', if_pos hk']
      · rw [if_neg hk', if_neg hk']
        exact ih

theorem collKeys_setAll (st : Coll) (cid : String) (doc : CommentDoc) :
    collKeys (st.map (fun p => if p.1 = cid then (cid, doc) else p)) =
      collKeys st := by
  induction st with
  | nil => rfl
  | cons p rest ih =>
    obtain ⟨k, v⟩ := p
    simp only [collKeys, List.map_cons] at ih ⊢
    by_cases hk : k = cid
    · rw [show (if ((k, v) : String × CommentDoc).1 = cid then (cid, doc) else (k, v)) =
          (cid, doc) from by simp [hk]]
      rw [ih]
      simp [hk]
    · rw [show (if ((k, v) : String × CommentDoc).1 = cid then (cid, doc) else (k, v)) =
          (k, v) from by simp [hk]]
      rw [ih]

theorem collFind_none_notMem (st : Coll) (cid : String)
    (h : collFind st cid = none) : cid ∉ collKeys st := by
  induction st with
  | nil => simp [collKeys]
  | cons p rest ih =>
    obtain ⟨k, v⟩ := p
    simp only [collFind] at h
    by_cases hk : k = cid
    · rw [if_pos hk] at h
      exact absurd h (by simp)
    · rw [if_neg hk] at h
      simp only [collKeys, List.map_cons, List.mem_cons]
      push_neg
      exact ⟨fun hh => hk hh.symm, ih h⟩

theorem applyUpdateOne_find_self (st : Coll) (cid : String) (doc : CommentDoc) :
    collFind (applyUpdateOne st cid doc).1 cid = some doc := by
  cases h : collFind st cid with
  | none =>
    simp only [applyUpdateOne, h]
    exact collFind_append_last st cid doc h
  | some old =>
    by_cases he : old = doc
    · simp only [applyUpdateOne, h, if_pos he]
      rw [he]
    · simp only [applyUpdateOne, h, if_neg he]
      exact collFind_setAll_self st cid doc (by rw [h]; simp)

theorem applyUpdateOne_find_other (st : Coll) (cid cid' : String)
    (doc : CommentDoc) (hne : cid' ≠ cid) :
    collFind (applyUpdateOne st cid doc).1 cid' = collFind st cid' := by
  cases h : collFind st cid with
  | none =>
    simp only [applyUpdateOne, h]
    exact collFind_append_other st cid cid' doc hne
  | some old =>
    by_cases he : old = doc
    · simp only [applyUpdateOne, h, if_pos he]
    · simp only [applyUpdateOne, h, if_neg he]
      exact collFind_setAll_other st cid cid' doc hne

theorem applyUpdateOne_keys (st : Coll) (cid : String) (doc : CommentDoc) :
    collKeys (applyUpdateOne st cid doc).1 =
      if collFind st cid = none then collKeys st ++ [cid] else collKeys st := by
  cases h : collFind st cid with
  | none =>
    simp only [applyUpdateOne, h, if_pos rfl]
    simp [collKeys]
  | some old =>
    by_cases he : old = doc
    · simp [applyUpdateOne, h, if_pos he]
    · simp only [applyUpdateOne, h, if_neg he]
      rw [collKeys_setAll]
      simp

theorem bulk_write_find (cs : List Comment) :
    ∀ (st : Coll) (cid : String),
      collFind (bulk_write st cs).1 cid =
        match lastFor cs cid with
        | some c => some (Comment.to_dict c)
        | none => collFind st cid := by
  induction cs with
  | nil => intro st cid; rfl
  | cons c rest ih =>
    intro st cid
    show collFind (bulk_write (applyUpdateOne st c.id (Comment.to_dict c)).1 rest).1 cid = _
    rw [ih]
    cases hl : lastFor rest cid with
    | some c' => simp only [lastFor, hl]
    | none =>
      simp only [lastFor, hl]
      by_cases hc : c.id = cid
      · rw [if_pos hc]
        rw [← hc]
        exact applyUpdateOne_find_self st c.id (Comment.to_dict c)
      · rw [if_neg hc]
        exact applyUpdateOne_find_other st c.id cid (Comment.to_dict c)
          (fun hh => hc hh.symm)

theorem lastFor_ne_none_of_mem (cs : List Comment) (c : Comment) (hc : c ∈ cs) :
    lastFor cs c.id ≠ none := by
  induction cs with
  | nil => simp at hc
  | cons a rest ih =>
    simp only [lastFor]
    cases hl : lastFor rest c.id with
    | some c' => simp
    | none =>
      rcases List.mem_cons.mp hc with h | h
      · subst h
        rw [if_pos rfl]
        simp
      · exact absurd hl (ih h)

theorem bulk_write_keys (cs : List Comment) :
    ∀ (st : Coll), (∀ c ∈ cs, collFind st c.id ≠ none) →
      collKeys (bulk_write st cs).1 = collKeys st := by
  induction cs with
  | nil => intro st _; rfl
  | cons c rest ih =>
    intro st hp
    have hstep : ∀ c' ∈ rest,
        collFind (applyUpdateOne st c.id (Comment.to_dict c)).1 c'.id ≠ none := by
      intro c' hc'
      by_cases hcc : c'.id = c.id
      · rw [hcc, applyUpdateOne_find_self]
        simp
      · rw [applyUpdateOne_find_other st c.id c'.id _ hcc]
        exact hp c' (List.mem_cons_of_mem c hc')
    show collKeys (bulk_write (applyUpdateOne st c.id (Comment.to_dict c)).1 rest).1 =
      collKeys st
    rw [ih _ hstep, applyUpdateOne_keys, if_neg (hp c (List.mem_cons_self c rest))]

theorem bulk_write_nodup (cs : List Comment) :
    ∀ (st : Coll), (collKeys st).Nodup → (collKeys (bulk_write st cs).1).Nodup := by
  induction cs with
  | nil => intro st h; exact h
  | cons c rest ih =>
    intro st h
    show (collKeys (bulk_write (applyUpdateOne st c.id (Comment.to_dict c)).1 rest).1).Nodup
    apply ih
    rw [applyUpdateOne_keys]
    cases hfind : collFind st c.id with
    | none =>
      rw [if_pos rfl]
      rw [List.nodup_append]
      refine ⟨h, List.nodup_singleton _, ?_⟩
      intro a ha hb
      simp only [List.mem_singleton] at hb
      subst hb
      exact collFind_none_notMem st c.id hfind ha
    | some old =>
      simp only [reduceCtorEq, if_false]
      exact h

/-- **C3** (idempotent comment upsert): starting from any collection whose
unique index holds (duplicate-free ids), running `upsert_many` on a comment
list twice leaves exactly the same ids as running it once, the unique index
keeps holding after each run (no duplicate records per id), after either
run each upserted id stores the latest value upserted for it, and each
`upsert_many` call is one `bulk_write` whose returned count is
`upserted_count + modified_count`. -/
theorem upsert_many_idempotent (st : Coll) (cs : List Comment)
    (hst : (collKeys st).Nodup) :
    collKeys (upsert_many (upsert_many st cs).1 cs).1 =
        collKeys (upsert_many st cs).1 ∧
    (collKeys (upsert_many st cs).1).Nodup ∧
    (collKeys (upsert_many (upsert_many st cs).1 cs).1).Nodup ∧
    (∀ c ∈ cs,
      collFind (upsert_many st cs).1 c.id =
          (lastFor cs c.id).map Comment.to_dict ∧
        collFind (upsert_many (upsert_many st cs).1 cs).1 c.id =
          (lastFor cs c.id).map Comment.to_dict) ∧
    (upsert_many st cs).2 =
        (bulk_write st cs).2.1 + (bulk_write st cs).2.2 ∧
    (upsert_many (upsert_many st cs).1 cs).2 =
        (bulk_write (upsert_many st cs).1 cs).2.1 +
          (bulk_write (upsert_many st cs).1 cs).2.2 := by
  cases cs with
  | nil => exact ⟨rfl, hst, hst, by simp, rfl, rfl⟩
  | cons c0 rest =>
    have hfind1 : ∀ c ∈ c0 :: rest,
        collFind (bulk_write st (c0 :: rest)).1 c.id =
          (lastFor (c0 :: rest) c.id).map Comment.to_dict := by
      intro c hc
      rw [bulk_write_find]
      cases hl : lastFor (c0 :: rest) c.id with
      | none => exact absurd hl (lastFor_ne_none_of_mem _ c hc)
      | some c' => rfl
    have hpresent : ∀ c ∈ c0 :: rest,
        collFind (bulk_write st (c0 :: rest)).1 c.id ≠ none := by
      intro c hc
      rw [hfind1 c hc]
      cases hl : lastFor (c0 :: rest) c.id with
      | none => exact absurd hl (lastFor_ne_none_of_mem _ c hc)
      | some c' => simp [hl]
    have hfind2 : ∀ c ∈ c0 :: rest,
        collFind (bulk_write (bulk_write st (c0 :: rest)).1 (c0 :: rest)).1 c.id =
          (lastFor (c0 :: rest) c.id).map Comment.to_dict := by
      intro c hc
      rw [bulk_write_find]
      cases hl : lastFor (c0 :: rest) c.id with
      | none => exact absurd hl (lastFor_ne_none_of_mem _ c hc)
      | some c' => rfl
    refine ⟨?_, ?_, ?_, ?_, rfl, rfl⟩
    · show collKeys (bulk_write (bulk_write st (c0 :: rest)).1 (c0 :: rest)).1 =
        collKeys (bulk_write st (c0 :: rest)).1
      exact bulk_write_keys (c0 :: rest) _ hpresent
    · show (collKeys (bulk_write st (c0 :: rest)).1).Nodup
      exact bulk_write_nodup _ st hst
    · show (collKeys (bulk_write (bulk_write st (c0 :: rest)).1 (c0 :: rest)).1).Nodup
      exact bulk_write_nodup _ _ (bulk_write_nodup _ st hst)
    · intro c hc
      exact ⟨hfind1 c hc, hfind2 c hc⟩

/-- A concrete comment batch with a duplicated id, for the C3 witness. -/
def witnessComments : List Comment :=
  [⟨"x", "d", "g", "9", "A", "hi", 1700000000000, 0, none, none⟩,
   ⟨"x", "d", "g", "9", "A", "hello", 1700000000000, 2, none, none⟩,
   ⟨"y", "d", "g", "8", "B", "yo", 0, 1, none, none⟩]

/-- Closed instance of C3: on the empty collection and a batch with a
duplicate id, re-running `upsert_many` leaves the same distinct ids. -/
theorem upsert_many_idempotent_witness :
    (collKeys ([] : Coll)).Nodup ∧
      collKeys (upsert_many (upsert_many [] witnessComments).1 witnessComments).1 =
        collKeys (upsert_many [] witnessComments).1 :=
  ⟨by decide, (upsert_many_idempotent [] witnessComments (by decide)).1⟩

end OkPipeline
